import Mathlib

set_option autoImplicit false
set_option maxHeartbeats 1000000

/-! Verification development for the stack-based grounding engine of ProbLog
(`problog/engine_stack.py`).  The definitions below are a shallow embedding of
the engine's data model and operations: messages, evaluation records, the
result set, the definition cache, transforms, the cycle-propagation walks and
the trampoline driver's outer message handling.  Line numbers in the doc
comments refer to `src/problog/engine_stack.py`.  Collaborators that live
outside that file (terms, the ground-formula target, `database.lineno`) are
modelled from the specification and marked as such.
-/

namespace ProbLogStack

/-- Modelled from the spec: terms of the logic language (`problog.logic.Term`
is outside src/).  A term is a variable or a constructor applied to argument
terms; this is the minimal structure needed for the grounding test. -/
inductive PTerm where
  | var (n : Nat)
  | con (f : String) (args : List PTerm)

mutual

/-- Boolean equality on terms (decidability helper for the nested type). -/
def PTerm.beq : PTerm → PTerm → Bool
  | .var n, .var m => n == m
  | .con f a, .con g b => f == g && PTerm.beqList a b
  | _, _ => false

/-- Boolean equality on term lists. -/
def PTerm.beqList : List PTerm → List PTerm → Bool
  | [], [] => true
  | a :: as, b :: bs => PTerm.beq a b && PTerm.beqList as bs
  | _, _ => false

end

mutual

theorem PTerm.beq_iff : (a b : PTerm) → (PTerm.beq a b = true ↔ a = b)
  | .var _, .var _ => by simp [PTerm.beq]
  | .var _, .con _ _ => by simp [PTerm.beq]
  | .con _ _, .var _ => by simp [PTerm.beq]
  | .con _ a, .con _ b => by simp [PTerm.beq, PTerm.beqList_iff a b]

theorem PTerm.beqList_iff : (as bs : List PTerm) → (PTerm.beqList as bs = true ↔ as = bs)
  | [], [] => by simp [PTerm.beqList]
  | [], _ :: _ => by simp [PTerm.beqList]
  | _ :: _, [] => by simp [PTerm.beqList]
  | a :: as, b :: bs => by
      simp [PTerm.beqList, PTerm.beq_iff a b, PTerm.beqList_iff as bs]

end

instance : DecidableEq PTerm := fun a b => decidable_of_iff _ (PTerm.beq_iff a b)

mutual

/-- Modelled from the spec: a term is ground when it contains no unbound
variables (`problog.engine.is_ground` is outside src/). -/
def PTerm.isGround : PTerm → Bool
  | .var _ => false
  | .con _ args => PTerm.allGround args

/-- Modelled from the spec: groundness of a list of terms. -/
def PTerm.allGround : List PTerm → Bool
  | [] => true
  | t :: ts => t.isGround && PTerm.allGround ts

end

/-- A call context: the ordered tuple of actual arguments of a call. -/
abbrev Ctx := List PTerm

/-- Modelled from the spec: `is_ground(*args)` — every argument is ground. -/
def ctxGround (c : Ctx) : Bool := PTerm.allGround c

/-- Ground-program node handle.  `NODE_TRUE = 0` and `NODE_FALSE = None`
(engine_stack.py lines 31-32); any other node is an integer id. -/
abbrev GNode := Option Nat

def NODE_TRUE : GNode := some 0

def NODE_FALSE : GNode := none

/-- Messages of the trampoline protocol, after the constructors `call`,
`newResult` and `complete` (lines 34-41).  Destination `none` addresses the
outer caller.  A `call` carries the keyword arguments the records build in
`createCall` (parent, context, identifier) plus the optional `call_origin`
pair (signature, location) that `eval_call` threads for error reporting. -/
inductive Action where
  | call (node_id : Int) (parent : Option Nat) (context : Ctx)
      (identifier : Option Nat) (callOrigin : Option (String × Nat))
  | result (dest : Option Nat) (res : Ctx) (node : GNode)
      (identifier : Option Nat) (is_last : Bool)
  | complete (dest : Option Nat) (identifier : Option Nat)
deriving DecidableEq

/-- Errors the engine raises (lines 14-29 together with `problog.engine`):
`unknownClauseInternal` embeds the private `_UnknownClause`, `unknownClause`
the public `UnknownClause(signature, location)`.  `outOfFuel` marks
exhaustion of the fuel the embedding gives a source `while` loop, and
`fatal` marks paths on which the Python source itself would crash (bad
pointer, record of an unexpected class). -/
inductive EngErr where
  | negativeCycle (loc : Nat)
  | indirectCallCycle (loc : Nat)
  | unknownClauseInternal
  | unknownClause (signature : String) (loc : Option Nat)
  | invalidEngineState
  | outOfFuel
  | fatal
deriving DecidableEq

/-- Transformations (lines 1050-1074): an ordered chain of result rewriters.
`addConstant` is a no-op in the source and is therefore omitted; the unused
`constant` field is likewise dead code. -/
structure Transformations where
  functions : List (Ctx → Option Ctx)

def Transformations.empty : Transformations := ⟨[]⟩

/-- Source `addFunction` (lines 1062-1065): append to the chain. -/
def Transformations.addFunction (t : Transformations) (f : Ctx → Option Ctx) :
    Transformations :=
  ⟨t.functions ++ [f]⟩

/-- Helper for `Transformations.apply`: run the already-reversed chain; the
running value is checked against `None` before each function is applied
(source lines 1071-1074). -/
def Transformations.applyGo : List (Ctx → Option Ctx) → Option Ctx → Option Ctx
  | [], res => res
  | f :: fs, res =>
    match res with
    | none => none
    | some x => Transformations.applyGo fs (f x)

/-- Source `__call__` (lines 1067-1074): apply the chained functions in
reverse order of addition; a `None` return short-circuits to `None`. -/
def Transformations.apply (t : Transformations) (r : Ctx) : Option Ctx :=
  Transformations.applyGo t.functions.reverse (some r)

/-- Common state of an evaluation record (`EvalNode.__init__`, lines
459-471).  `loc` stands for `database.lineno(self.node.location)`: the
diagnostic position the external database would report for this record's
node, carried as an opaque token. -/
structure EvalNodeBase where
  parent : Option Nat
  identifier : Option Nat
  context : Ctx
  transform : Option Transformations
  pointer : Nat
  on_cycle : Bool
  loc : Nat

/-- Source `EvalNode.notifyComplete` with an explicit destination (lines
484-486, `parent` keyword). -/
def EvalNodeBase.notifyCompleteTo (b : EvalNodeBase) (parent : Option Nat) :
    List Action :=
  [.complete parent b.identifier]

/-- Source `EvalNode.notifyComplete` with the default destination. -/
def EvalNodeBase.notifyComplete (b : EvalNodeBase) : List Action :=
  b.notifyCompleteTo b.parent

/-- Source `EvalNode.notifyResult` (lines 473-482): apply the transform chain
when one is installed; a `None` outcome drops the result, still emitting
`complete` when the dropped result was flagged `is_last`. -/
def EvalNodeBase.notifyResult (b : EvalNodeBase) (arguments : Ctx)
    (node : GNode) (is_last : Bool) : List Action :=
  match b.transform with
  | none => [.result b.parent arguments node b.identifier is_last]
  | some t =>
    match t.apply arguments with
    | none => if is_last then b.notifyComplete else []
    | some args2 => [.result b.parent args2 node b.identifier is_last]

/-- C5. Transform composition: a chain built by adding f₁, f₂, f₃ in that
order applies them in reverse order, f₁(f₂(f₃(r))), and a `None` return by
any step short-circuits the whole application to `None` without running the
remaining functions (the match chain returns `none` as soon as a step does). -/
theorem transform_chain_reverse_order (f1 f2 f3 : Ctx → Option Ctx) (r : Ctx) :
    (((Transformations.empty.addFunction f1).addFunction f2).addFunction f3).apply r
      = match f3 r with
        | none => none
        | some x =>
          match f2 x with
          | none => none
          | some y => f1 y := by
  simp only [Transformations.apply, Transformations.empty,
    Transformations.addFunction, List.nil_append, List.reverse_append,
    List.reverse_cons, List.reverse_nil, List.singleton_append]
  cases h3 : f3 r with
  | none => simp [Transformations.applyGo, h3]
  | some x =>
    cases h2 : f2 x with
    | none => simp [Transformations.applyGo, h3, h2]
    | some y => simp [Transformations.applyGo, h3, h2]

/-- C6. A record forwarding a result through its transform chain: when the
transform returns `None` on a result flagged `is_last`, the record emits a
`complete` to its parent; when the transform returns `None` on a non-last
result, no message is emitted at all. -/
theorem notifyResult_transform_drop (b : EvalNodeBase) (t : Transformations)
    (arguments : Ctx) (node : GNode)
    (ht : b.transform = some t) (hd : t.apply arguments = none) :
    b.notifyResult arguments node true = [.complete b.parent b.identifier]
      ∧ b.notifyResult arguments node false = [] := by
  constructor <;>
    simp [EvalNodeBase.notifyResult, ht, hd, EvalNodeBase.notifyComplete,
      EvalNodeBase.notifyCompleteTo]

/-- Witness for C6 at a concrete record whose transform drops every result. -/
theorem notifyResult_transform_drop_witness :
    ({ parent := some 0, identifier := none, context := [], pointer := 3,
       on_cycle := false, loc := 0,
       transform := some ⟨[fun _ => none]⟩ } : EvalNodeBase).notifyResult [] NODE_TRUE true
        = [.complete (some 0) none]
      ∧ ({ parent := some 0, identifier := none, context := [], pointer := 3,
           on_cycle := false, loc := 0,
           transform := some ⟨[fun _ => none]⟩ } : EvalNodeBase).notifyResult [] NODE_TRUE false
        = [] :=
  notifyResult_transform_drop _ ⟨[fun _ => none]⟩ [] NODE_TRUE rfl rfl

/-- Value stored in one row of a `ResultSet` (lines 731-786): before collapse
a list of contributing ground nodes, after collapse a single node. -/
inductive RVal where
  | ns (nodes : List GNode)
  | single (node : GNode)
deriving DecidableEq

/-- Projection used when iterating a collapsed result set (`for result, node
in self.results`).  An uncollapsed row is unreachable on the source paths
that iterate after collapsing; we return `NODE_FALSE` there. -/
def RVal.nodeOf : RVal → GNode
  | .single n => n
  | .ns _ => none

/-- ResultSet (lines 731-786): insertion-ordered rows plus the one-way
`collapsed` flag.  The source's `index` dict maps a result to its row
position and row keys are unique, so lookup is embedded positionally. -/
structure ResultSet where
  results : List (Ctx × RVal)
  collapsed : Bool
deriving DecidableEq

def ResultSet.empty : ResultSet := ⟨[], false⟩

/-- Source `keys` (lines 762-763). -/
def ResultSet.keys (rs : ResultSet) : List Ctx := rs.results.map Prod.fst

/-- Lookup in an association list (first matching key), used for the nested
dictionaries and positional row lookup. -/
def assocGet {α : Type} {β : Type} [DecidableEq α] : List (α × β) → α → Option β
  | [], _ => none
  | p :: m, k => if p.1 = k then some p.2 else assocGet m k

/-- Dictionary update on an association list: overwrite the first occurrence
of the key, append when absent.  Embeds the map behaviour of `NestedDict`
(lines 597-666), whose trie realizes a finite map keyed by
(functor, arity, argument tuple). -/
def assocSet {α : Type} {β : Type} [DecidableEq α] : List (α × β) → α → β → List (α × β)
  | [], k, v => [(k, v)]
  | p :: m, k, v => if p.1 = k then (k, v) :: m else p :: assocSet m k v

theorem assocGet_assocSet_self {α β : Type} [DecidableEq α]
    (m : List (α × β)) (k : α) (v : β) : assocGet (assocSet m k v) k = some v := by
  induction m with
  | nil => simp [assocSet, assocGet]
  | cons p m ih =>
    by_cases h : p.1 = k <;> simp [assocSet, assocGet, h, ih]

theorem assocGet_assocSet_ne {α β : Type} [DecidableEq α]
    (m : List (α × β)) (k k' : α) (v : β) (h : k' ≠ k) :
    assocGet (assocSet m k v) k' = assocGet m k' := by
  have h' : ¬ k = k' := fun hh => h hh.symm
  induction m with
  | nil => simp [assocSet, assocGet, h']
  | cons p m ih =>
    by_cases hp : p.1 = k
    · simp [assocSet, assocGet, hp, h']
    · simp [assocSet, assocGet, hp, ih]

/-- Source `ResultSet.__getitem__`/`get` (lines 751-760): the stored value
for a result key. -/
def ResultSet.getItem (rs : ResultSet) (r : Ctx) : Option RVal :=
  assocGet rs.results r

/-- Row update helper for `ResultSet.setItem`: extend the node list of the
row with this key, or append a fresh row at the end.  Extending a collapsed
(single-node) row trips an assert in the source; the embedding leaves such a
row unchanged on that unreachable path. -/
def ResultSet.setRows : List (Ctx × RVal) → Ctx → GNode → Bool → List (Ctx × RVal)
  | [], r, node, collapsed => [(r, if collapsed then .single node else .ns [node])]
  | p :: rows, r, node, collapsed =>
    if p.1 = r then
      (match p.2 with
       | .ns l => (p.1, RVal.ns (l ++ [node]))
       | .single n => (p.1, RVal.single n)) :: rows
    else p :: ResultSet.setRows rows r node collapsed

/-- Source `ResultSet.__setitem__` (lines 738-749). -/
def ResultSet.setItem (rs : ResultSet) (r : Ctx) (node : GNode) : ResultSet :=
  { rs with results := ResultSet.setRows rs.results r node rs.collapsed }

/-- Source `ResultSet.collapse` (lines 771-777): one-way fold of every row's
node list through `function`, threading the state (the ground target) that
the function writes to. -/
def ResultSet.collapse {σ : Type} (rs : ResultSet)
    (f : σ → Ctx → List GNode → σ × GNode) (s : σ) : ResultSet × σ :=
  if rs.collapsed then (rs, s)
  else
    let step := fun (acc : List (Ctx × RVal) × σ) (p : Ctx × RVal) =>
      match p.2 with
      | .ns nodes =>
        let (s', n) := f acc.2 p.1 nodes
        (acc.1 ++ [(p.1, RVal.single n)], s')
      | .single n => (acc.1 ++ [(p.1, RVal.single n)], acc.2)
    let folded := rs.results.foldl step ([], s)
    ({ results := folded.1, collapsed := true }, folded.2)

/-- Modelled from the spec (§4.7): the ground-formula target
(`problog.formula`, outside src/).  Fresh ids start at 1; id 0 is the TRUE
sentinel and `none` the FALSE sentinel, with the spec's identity shortcuts:
an empty Or is FALSE, an Or containing TRUE is TRUE, and negation swaps the
sentinels.  Every created node is logged. -/
structure Formula where
  counter : Nat
  ors : List (Nat × List GNode × Bool)
  nots : List (Nat × Nat)
  disjuncts : List (Nat × GNode)
deriving DecidableEq

def Formula.init : Formula := ⟨1, [], [], []⟩

/-- Modelled from the spec: `addOr(nodes, readonly?) → node_id`. -/
def Formula.addOr (f : Formula) (nodes : List GNode) (readonly : Bool) :
    Formula × GNode :=
  if nodes = [] then (f, NODE_FALSE)
  else if NODE_TRUE ∈ nodes then (f, NODE_TRUE)
  else ({ f with
            counter := f.counter + 1
            ors := f.ors ++ [(f.counter, nodes, readonly)] }, some f.counter)

/-- Modelled from the spec: `addNot(node) → node_id`. -/
def Formula.addNot (f : Formula) (node : GNode) : Formula × GNode :=
  match node with
  | none => (f, NODE_TRUE)
  | some 0 => (f, NODE_FALSE)
  | some n =>
    ({ f with
        counter := f.counter + 1
        nots := f.nots ++ [(f.counter, n)] }, some f.counter)

/-- Modelled from the spec: `addDisjunct(or_node, new_child)` appends a
disjunct to a mutable Or node. -/
def Formula.addDisjunct (f : Formula) (orNode : Nat) (child : GNode) : Formula :=
  { f with disjuncts := f.disjuncts ++ [(orNode, child)] }

/-- A goal: (functor, argument tuple). -/
abbrev Goal := String × Ctx

/-- DefineCache (lines 668-729): completed ground rows, completed non-ground
result sets, and the active map from a goal to the Define record servicing
it (the source stores the record object; the embedding stores its arena
pointer).  A failed ground goal is stored as `NODE_FALSE`, embedded as
`.single none`. -/
structure DefineCache where
  ground : List (Goal × RVal)
  non_ground : List (Goal × List (Ctx × RVal))
  active : List (Goal × Nat)
deriving DecidableEq

def DefineCache.empty : DefineCache := ⟨[], [], []⟩

/-- Source `is_dont_cache` (lines 675-676): the first nine characters of the
goal's functor equal the `_nocache_` marker. -/
def DefineCache.is_dont_cache (goal : Goal) : Bool :=
  goal.1.take 9 = "_nocache_"

/-- Source `DefineCache.__setitem__` (lines 687-705).  A `_nocache_` goal is
dropped.  For a ground goal with results, only the first result key (the
head of the insertion order, `next(iter(results.keys()))`) is stored; an
empty result set stores `NODE_FALSE` under the call arguments.  A non-ground
goal stores its full row list and one ground row per result key.  The
truthiness test `if results:` is the non-emptiness of the key list. -/
def DefineCache.setItem (c : DefineCache) (goal : Goal) (results : ResultSet) :
    DefineCache :=
  if DefineCache.is_dont_cache goal then c
  else
    let functor := goal.1
    let args := goal.2
    if ctxGround args then
      match results.keys with
      | [] => { c with ground := assocSet c.ground (functor, args) (.single NODE_FALSE) }
      | res_key :: _ =>
        let v := (results.getItem res_key).getD (RVal.single none)
        { c with ground := assocSet c.ground (functor, res_key) v }
    else
      let c1 := { c with non_ground := assocSet c.non_ground goal results.results }
      results.keys.foldl
        (fun cc res_key =>
          let v := (results.getItem res_key).getD (RVal.single none)
          { cc with ground := assocSet cc.ground (functor, res_key) v })
        c1

/-- Source `DefineCache.__getitem__` (lines 713-719): a ground goal is read
from the ground table as a one-row list, a non-ground goal returns the
stored row list. -/
def DefineCache.getItem (c : DefineCache) (goal : Goal) :
    Option (List (Ctx × RVal)) :=
  if ctxGround goal.2 then (assocGet c.ground goal).map (fun v => [(goal.2, v)])
  else assocGet c.non_ground goal

/-- Source `DefineCache.get` (lines 707-711): `__getitem__` with `KeyError`
converted to the default `None`. -/
def DefineCache.get (c : DefineCache) (goal : Goal) : Option (List (Ctx × RVal)) :=
  c.getItem goal

/-- Source `DefineCache.__contains__` (lines 721-726). -/
def DefineCache.containsGoal (c : DefineCache) (goal : Goal) : Bool :=
  if ctxGround goal.2 then (assocGet c.ground goal).isSome
  else (assocGet c.non_ground goal).isSome

/-- Source `DefineCache.activate` (lines 678-679). -/
def DefineCache.activate (c : DefineCache) (goal : Goal) (ptr : Nat) : DefineCache :=
  { c with active := assocSet c.active goal ptr }

/-- Source `DefineCache.deactivate` (lines 681-682). -/
def DefineCache.deactivate (c : DefineCache) (goal : Goal) : DefineCache :=
  { c with active := c.active.filter (fun p => ¬ p.1 = goal) }

/-- Source `DefineCache.getEvalNode` (lines 684-685). -/
def DefineCache.getEvalNode (c : DefineCache) (goal : Goal) : Option Nat :=
  assocGet c.active goal

/-- The ground target the records write to: the formula DAG plus the
definition cache hosted on it as `target._cache` (line 146). -/
structure Target where
  formula : Formula
  cache : DefineCache
deriving DecidableEq

/-- C7. A goal whose functor begins with the `_nocache_` marker is never
written to the cache: `__setitem__` returns immediately, so both the
ground-results table and the non-ground-results table are untouched; in
particular a goal that was not cached before the write still misses, so a
subsequent identical call cannot be served from the completed-results
cache. -/
theorem nocache_goal_never_stored (c : DefineCache) (functor : String)
    (args : Ctx) (results : ResultSet) (h : functor.take 9 = "_nocache_") :
    c.setItem (functor, args) results = c
      ∧ (c.get (functor, args) = none →
          (c.setItem (functor, args) results).get (functor, args) = none) := by
  have hd : DefineCache.is_dont_cache (functor, args) = true := by
    simp [DefineCache.is_dont_cache, h]
  refine ⟨by simp [DefineCache.setItem, hd], ?_⟩
  intro h0
  simpa [DefineCache.setItem, hd] using h0

/-- Witness for C7 at the concrete functor `_nocache_p` on the empty cache. -/
theorem nocache_goal_never_stored_witness :
    "_nocache_p".take 9 = "_nocache_"
      ∧ (DefineCache.empty.setItem ("_nocache_p", []) ResultSet.empty = DefineCache.empty
          ∧ (DefineCache.empty.get ("_nocache_p", []) = none →
              (DefineCache.empty.setItem ("_nocache_p", []) ResultSet.empty).get
                ("_nocache_p", []) = none)) :=
  ⟨by decide, nocache_goal_never_stored DefineCache.empty "_nocache_p" [] ResultSet.empty (by decide)⟩

/-- Concrete collapsed result set with two rows, used for C9. -/
def rsC9 : ResultSet :=
  ⟨[([PTerm.con "a" []], .single (some 4)), ([PTerm.con "b" []], .single (some 5))], true⟩

/-- Concrete collapsed result set with one row under a `_nocache_` functor,
used for C9. -/
def rsC9n : ResultSet := ⟨[([PTerm.con "b" []], .single (some 3))], true⟩

/-- Concrete cache that already holds a ground row for `p(b)`, used for C9. -/
def cacheC9 : DefineCache := ⟨[(("p", [PTerm.con "b" []]), .single (some 7))], [], []⟩

/-- C9 counterexample.  The claim fails as stated on two source behaviours:
(1) for a `_nocache_` functor the write stores nothing at all, so the first
result's row is not retrievable either; (2) a further result's key can
perfectly well be retrievable after the write when an earlier write already
cached it — the write discards the further results but does not remove
them. -/
theorem cache_ground_write_first_result_cex :
    assocGet ((DefineCache.empty.setItem ("_nocache_q", [PTerm.con "a" []]) rsC9n)).ground
        ("_nocache_q", [PTerm.con "b" []]) = none
      ∧ (cacheC9.setItem ("p", [PTerm.con "a" []]) rsC9).getItem ("p", [PTerm.con "b" []])
        = some [([PTerm.con "b" []], RVal.single (some 7))] := by
  constructor <;> decide

/-- C9 (amended).  For a completed goal with fully ground arguments, a
non-empty result set, and a functor that does not begin with the `_nocache_`
marker, the cache write stores exactly one ground row — the first result in
the set's insertion order, keyed by (functor, that result's argument tuple)
— and nothing else changes: every other ground key reads as before the
write, so the further results are discarded by this write and a further
result not previously cached remains unretrievable. -/
theorem cache_ground_write_first_result (c : DefineCache) (functor : String)
    (args k : Ctx) (ks : List Ctx) (results : ResultSet)
    (hnc : ¬ functor.take 9 = "_nocache_")
    (hg : ctxGround args = true)
    (hk : results.keys = k :: ks) :
    (c.setItem (functor, args) results)
        = { c with ground := assocSet c.ground (functor, k) ((results.getItem k).getD (RVal.single none)) }
      ∧ ∀ k', ¬ k' = k →
          assocGet ((c.setItem (functor, args) results)).ground (functor, k')
            = assocGet c.ground (functor, k') := by
  have hd : DefineCache.is_dont_cache (functor, args) = false := by
    simp [DefineCache.is_dont_cache]
    exact hnc
  constructor
  · simp [DefineCache.setItem, hd, hg, hk]
  · intro k' hne
    have hpair : ((functor, k') : Goal) ≠ (functor, k) :=
      fun hh => hne (congrArg Prod.snd hh)
    simp [DefineCache.setItem, hd, hg, hk]
    exact assocGet_assocSet_ne _ _ _ _ hpair

/-- Witness for C9 at a concrete two-result write into the empty cache. -/
theorem cache_ground_write_first_result_witness :
    (DefineCache.empty.setItem ("p", [PTerm.con "a" []]) rsC9)
        = { DefineCache.empty with ground := assocSet DefineCache.empty.ground ("p", [PTerm.con "a" []]) ((rsC9.getItem [PTerm.con "a" []]).getD (RVal.single none)) }
      ∧ assocGet ((DefineCache.empty.setItem ("p", [PTerm.con "a" []]) rsC9)).ground
          ("p", [PTerm.con "b" []])
        = assocGet DefineCache.empty.ground ("p", [PTerm.con "b" []]) :=
  ⟨(cache_ground_write_first_result DefineCache.empty "p" [PTerm.con "a" []]
      [PTerm.con "a" []] [[PTerm.con "b" []]] rsC9 (by decide) (by decide) rfl).1,
   (cache_ground_write_first_result DefineCache.empty "p" [PTerm.con "a" []]
      [PTerm.con "a" []] [[PTerm.con "b" []]] rsC9 (by decide) (by decide) rfl).2
     [PTerm.con "b" []] (by decide)⟩

/-- EvalNot record state (lines 1009-1020): the set of collected ground
nodes, embedded as a duplicate-free list in arrival order (the source uses a
Python set; `NODE_FALSE` is never stored, so members are plain ids). -/
structure NotRec where
  base : EvalNodeBase
  nodes : List Nat

/-- Source `EvalNot.complete` (lines 1033-1042): with an empty node set the
record reports deterministic truth — `notifyResult(context, NODE_TRUE)` with
the default `is_last=False` — otherwise it builds `addNot(addOr(nodes))` and
forwards that node unless it is `NODE_FALSE`; in every case a single
`complete` follows and the record asks for cleanup. -/
def NotRec.completeN (r : NotRec) (tgt : Target) (_source : Option Nat) :
    Bool × List Action × NotRec × Target :=
  if r.nodes.isEmpty then
    (true, r.base.notifyResult r.base.context NODE_TRUE false ++ r.base.notifyComplete, r, tgt)
  else
    let p1 := tgt.formula.addOr (r.nodes.map some) true
    let p2 := p1.1.addNot p1.2
    let acts := if p2.2 ≠ NODE_FALSE then r.base.notifyResult r.base.context p2.2 false else []
    (true, acts ++ r.base.notifyComplete, r, { tgt with formula := p2.1 })

/-- Source `EvalNot.newResult` (lines 1025-1031): a ground node other than
`NODE_FALSE` is added to the set; nothing is forwarded, and the `is_last`
flag triggers completion. -/
def NotRec.newResult (r : NotRec) (tgt : Target) (_result : Ctx) (node : GNode)
    (source : Option Nat) (is_last : Bool) : Bool × List Action × NotRec × Target :=
  let r' := match node with
    | none => r
    | some n => { r with nodes := if n ∈ r.nodes then r.nodes else r.nodes ++ [n] }
  if is_last then r'.completeN tgt source else (false, [], r', tgt)

/-- Concrete Not record with no collected nodes, used for C4. -/
def notC4 : NotRec := ⟨⟨some 0, none, [], none, 2, false, 0⟩, []⟩

/-- Concrete target, used for C4. -/
def tgtC4 : Target := ⟨Formula.init, DefineCache.empty⟩

/-- C4 counterexample.  On completion with an empty node set the source
emits `result(parent, context, NODE_TRUE, is_last=False)` followed by a
separate `complete` — not a single `result(..., last=true)` as claimed —
and an incoming result whose ground node is `NODE_FALSE` is not added to
the node set. -/
theorem not_record_protocol_cex :
    (notC4.completeN tgtC4 none).2.1
        = [Action.result (some 0) [] NODE_TRUE none false, Action.complete (some 0) none]
      ∧ ¬ (notC4.completeN tgtC4 none).2.1
        = [Action.result (some 0) [] NODE_TRUE none true]
      ∧ (notC4.newResult tgtC4 [] NODE_FALSE none false).2.2.1.nodes = [] := by
  refine ⟨?_, ?_, ?_⟩ <;> decide

/-- C4 (amended).  For every Not record (with no transform installed):
an incoming non-last result adds its ground node to `nodes` when that node
is not `NODE_FALSE` (and forwards nothing), and leaves the set unchanged on
`NODE_FALSE`; on completion, if `nodes` is empty the record emits
`result(parent, context, NODE_TRUE, is_last=False)` followed by exactly one
`complete`; otherwise it requests `addOr(nodes)` then `addNot(or_node)` and,
when the resulting node is not `NODE_FALSE`, forwards exactly one result
(`is_last=False`) carrying it, followed in all cases by exactly one
`complete`. -/
theorem not_record_protocol (r : NotRec) (tgt : Target) (result : Ctx)
    (node : GNode) (source : Option Nat) (ht : r.base.transform = none) :
    (∀ n, node = some n →
        r.newResult tgt result node source false
          = (false, [], { r with nodes := if n ∈ r.nodes then r.nodes else r.nodes ++ [n] }, tgt))
      ∧ (node = none → r.newResult tgt result node source false = (false, [], r, tgt))
      ∧ (r.nodes = [] →
          r.completeN tgt source
            = (true, [Action.result r.base.parent r.base.context NODE_TRUE r.base.identifier false,
                Action.complete r.base.parent r.base.identifier], r, tgt))
      ∧ (r.nodes ≠ [] →
          r.completeN tgt source
            = (let p1 := tgt.formula.addOr (r.nodes.map some) true
               let p2 := p1.1.addNot p1.2
               (true,
                (if p2.2 ≠ NODE_FALSE then
                    [Action.result r.base.parent r.base.context p2.2 r.base.identifier false]
                  else []) ++ [Action.complete r.base.parent r.base.identifier],
                r, { tgt with formula := p2.1 }))) := by
  refine ⟨?_, ?_, ?_, ?_⟩
  · intro n hn
    subst hn
    simp [NotRec.newResult]
  · intro hn
    subst hn
    simp [NotRec.newResult]
  · intro he
    simp [NotRec.completeN, he, EvalNodeBase.notifyResult, ht,
      EvalNodeBase.notifyComplete, EvalNodeBase.notifyCompleteTo]
  · intro hne
    have hempty : r.nodes.isEmpty = false := by
      cases h : r.nodes with
      | nil => exact absurd h hne
      | cons a l => simp [h]
    simp only [NotRec.completeN, hempty, Bool.false_eq_true, if_false]
    split <;>
      simp_all [EvalNodeBase.notifyResult, EvalNodeBase.notifyComplete,
        EvalNodeBase.notifyCompleteTo]

/-- Concrete Not record with one collected node, used for the C4 witness. -/
def notC4b : NotRec := ⟨⟨some 1, none, [], none, 2, false, 0⟩, [3]⟩

/-- Witness for C4 at concrete Not records. -/
theorem not_record_protocol_witness :
    (notC4b.newResult tgtC4 [] (some 5) none false
        = (false, [], { notC4b with nodes := if 5 ∈ notC4b.nodes then notC4b.nodes else notC4b.nodes ++ [5] }, tgtC4))
      ∧ (notC4b.completeN tgtC4 none
          = (let p1 := tgtC4.formula.addOr (notC4b.nodes.map some) true
             let p2 := p1.1.addNot p1.2
             (true,
              (if p2.2 ≠ NODE_FALSE then
                  [Action.result notC4b.base.parent notC4b.base.context p2.2 notC4b.base.identifier false]
                else []) ++ [Action.complete notC4b.base.parent notC4b.base.identifier],
              notC4b, { tgtC4 with formula := p2.1 }))) :=
  ⟨(not_record_protocol notC4b tgtC4 [] (some 5) none rfl).1 5 rfl,
   (not_record_protocol notC4b tgtC4 [] (some 5) none rfl).2.2.2 (by decide)⟩

/-- EvalOr record state (lines 518-532). -/
structure OrRec where
  base : EvalNodeBase
  results : ResultSet
  to_complete : Int

/-- EvalDefine record state (lines 789-808).  `functor` is `node.functor`;
`cycle_close` is a set of arena pointers, embedded as a duplicate-free
list. -/
structure DefineRec where
  base : EvalNodeBase
  functor : String
  results : ResultSet
  cycle_children : List Nat
  cycle_close : List Nat
  is_cycle_root : Bool
  is_cycle_child : Bool
  is_cycle_parent : Bool
  to_complete : Int
  is_ground : Bool

/-- Source `EvalOr.flushBuffer` (lines 537-539): collapse the result set
through `addOr(nodes, readonly=(not cycle))`. -/
def OrRec.flushBufferO (o : OrRec) (tgt : Target) (cycle : Bool) : OrRec × Target :=
  let f := fun (t : Target) (_res : Ctx) (nodes : List GNode) =>
    let p := t.formula.addOr nodes (!cycle)
    ({ t with formula := p.1 }, p.2)
  let p := o.results.collapse f tgt
  ({ o with results := p.1 }, p.2)

/-- Source `EvalOr.createCycle` (lines 582-588): mark on-cycle, collapse
with mutable Or nodes, and forward every known result to the parent. -/
def OrRec.createCycleO (o : OrRec) (tgt : Target) : OrRec × Target × List Action :=
  let o1 : OrRec := { o with base := { o.base with on_cycle := true } }
  let p := o1.flushBufferO tgt true
  let acts := p.1.results.results.foldl
    (fun acc row => acc ++ p.1.base.notifyResult row.1 row.2.nodeOf false) []
  (p.1, p.2, acts)

/-- Source `EvalDefine.flushBuffer` (lines 905-919): collapse the result
set; each row's node either comes from an existing completed-cache entry for
`(functor, result)` — the stored single row's node — or is a fresh
`addOr(nodes, readonly=(not cycle))`.  The embedding fixes the engine
configuration `label_all = False` (the constructor default), so the
cosmetic `addName` call is skipped. -/
def DefineRec.flushBufferD (d : DefineRec) (tgt : Target) (cycle : Bool) : DefineRec × Target :=
  let f := fun (t : Target) (res : Ctx) (nodes : List GNode) =>
    if t.cache.containsGoal (d.functor, res) then
      match t.cache.getItem (d.functor, res) with
      | some (row :: _) => (t, row.2.nodeOf)
      | _ => (t, none)
    else
      let p := t.formula.addOr nodes (!cycle)
      ({ t with formula := p.1 }, p.2)
  let p := d.results.collapse f tgt
  ({ d with results := p.1 }, p.2)

/-- Source `EvalDefine.createCycle` (lines 981-994): a record already
on-cycle, or the cycle root itself, does nothing; otherwise mark on-cycle,
collapse with mutable Or nodes, and forward every known result to the
parent. -/
def DefineRec.createCycleD (d : DefineRec) (tgt : Target) : DefineRec × Target × List Action :=
  if d.base.on_cycle then (d, tgt, [])
  else if d.is_cycle_root then (d, tgt, [])
  else
    let d1 : DefineRec := { d with base := { d.base with on_cycle := true } }
    let p := d1.flushBufferD tgt true
    let acts := p.1.results.results.foldl
      (fun acc row => acc ++ p.1.base.notifyResult row.1 row.2.nodeOf false) []
    (p.1, p.2, acts)

/-- Source `EvalDefine.closeCycle` (lines 971-979): on the cycle root with
`toplevel` set, reset the engine's `cycle_root` to `None` and emit a
`complete` to every pointer in `cycle_close`; any other invocation is a
no-op.  The method returns only actions: it neither clears `cycle_close`
nor requests cleanup of the record. -/
def DefineRec.closeCycleD (d : DefineRec) (toplevel : Bool) (cycleRoot : Option Nat) :
    Option Nat × List Action × DefineRec :=
  if d.is_cycle_root && toplevel then
    (none, d.cycle_close.foldl (fun acc cc => acc ++ d.base.notifyCompleteTo (some cc)) [], d)
  else (cycleRoot, [], d)

theorem foldl_notifyCompleteTo (b : EvalNodeBase) (l : List Nat) :
    ∀ acc : List Action,
      l.foldl (fun acc cc => acc ++ b.notifyCompleteTo (some cc)) acc
        = acc ++ l.map (fun cc => Action.complete (some cc) b.identifier) := by
  induction l with
  | nil => intro acc; simp
  | cons a l ih =>
    intro acc
    simp only [List.foldl_cons, List.map_cons]
    rw [ih]
    simp [EvalNodeBase.notifyCompleteTo]

/-- Concrete cycle-root Define record with a non-empty `cycle_close`, used
for C1. -/
def defC1 : DefineRec :=
  ⟨⟨none, none, [], none, 0, false, 0⟩, "p", ResultSet.empty, [], [5], true, false, false, 0, true⟩

/-- C1 counterexample.  After `closeCycle(toplevel=True)` on a cycle root,
`cycle_close` still holds its members: the source never clears the set. -/
theorem closeCycle_root_toplevel_cex :
    (defC1.closeCycleD true (some 3)).2.2.cycle_close = [5]
      ∧ ¬ (defC1.closeCycleD true (some 3)).2.2.cycle_close = [] := by
  constructor <;> decide

/-- C1 (amended).  Invoking `closeCycle` with `toplevel=true` on a Define
record that is the cycle root resets the engine's cycle-root reference to ⊥
and emits exactly one `complete` message to every record pointer in its
`cycle_close` set; the set itself is left unchanged (it is not cleared),
and the record is returned unchanged with no cleanup request, so the root
remains in the arena until its own natural completion. -/
theorem closeCycle_root_toplevel (d : DefineRec) (cycleRoot : Option Nat)
    (h : d.is_cycle_root = true) :
    d.closeCycleD true cycleRoot
      = (none, d.cycle_close.map (fun cc => Action.complete (some cc) d.base.identifier), d) := by
  simp only [DefineRec.closeCycleD, h, Bool.and_self, if_true, Bool.true_and, if_pos]
  rw [foldl_notifyCompleteTo]
  simp

/-- Witness for C1 at the concrete record `defC1`. -/
theorem closeCycle_root_toplevel_witness :
    defC1.closeCycleD true (some 3)
      = (none, defC1.cycle_close.map (fun cc => Action.complete (some cc) defC1.base.identifier), defC1) :=
  closeCycle_root_toplevel defC1 (some 3) rfl

/-- An arena record.  `notR`, `orR` and `defineR` embed the classes with an
overridden `createCycle`; `genR` embeds the records that use the inherited
default `EvalNode.createCycle` (lines 500-502) — `EvalAnd` and
`EvalBuiltIn` — whose cycle behaviour is fully described by their common
base fields. -/
inductive Rec where
  | notR (r : NotRec)
  | orR (r : OrRec)
  | defineR (r : DefineRec)
  | genR (b : EvalNodeBase)

/-- The record's parent pointer. -/
def Rec.parent : Rec → Option Nat
  | .notR r => r.base.parent
  | .orR r => r.base.parent
  | .defineR r => r.base.parent
  | .genR b => b.parent

/-- The record's `on_cycle` flag. -/
def Rec.onCycle : Rec → Bool
  | .notR r => r.base.on_cycle
  | .orR r => r.base.on_cycle
  | .defineR r => r.base.on_cycle
  | .genR b => b.on_cycle

/-- The record's source position, `database.lineno(node.location)`. -/
def Rec.locOf : Rec → Nat
  | .notR r => r.base.loc
  | .orR r => r.base.loc
  | .defineR r => r.base.loc
  | .genR b => b.loc

/-- Dynamic dispatch of `createCycle`: `EvalNot.createCycle` raises
`NegativeCycle` with the Not's source location (lines 1044-1045); the other
records mark themselves on-cycle and may flush and forward results. -/
def Rec.createCycle : Rec → Target → Except EngErr (Rec × Target × List Action)
  | .notR r, _ => .error (.negativeCycle r.base.loc)
  | .orR r, tgt =>
    let p := r.createCycleO tgt
    .ok (.orR p.1, p.2.1, p.2.2)
  | .defineR r, tgt =>
    let p := r.createCycleD tgt
    .ok (.defineR p.1, p.2.1, p.2.2)
  | .genR b, tgt => .ok (.genR { b with on_cycle := true }, tgt, [])

/-- Source `StackBasedEngine.checkCycle` (lines 129-137): walk the parent
chain from `current` down toward `parent`; stop at `parent` or at a record
already on-cycle; raise `NegativeCycle` at a Not record.  The walk is given
fuel for the source's `while` loop; `fatal` marks the paths on which the
Python source would crash (pointer out of range, empty slot, `None`
parent used as an index). -/
def checkCycleGo (stack : List (Option Rec)) (parent : Nat) :
    Nat → Nat → Except EngErr Unit
  | 0, _ => .error .outOfFuel
  | fuel+1, current =>
    if current = parent then .ok ()
    else
      match stack.get? current with
      | none => .error .fatal
      | some none => .error .fatal
      | some (some r) =>
        if r.onCycle then .ok ()
        else
          match r with
          | .notR nr => .error (.negativeCycle nr.base.loc)
          | _ =>
            match r.parent with
            | some p => checkCycleGo stack parent fuel p
            | none => .error .fatal

/-- Source `StackBasedEngine.notifyCycle` (lines 111-127): walk from a
record up toward the cycle root at `root`, invoking `createCycle` on every
record not yet on-cycle, accumulating the produced actions and the record
updates; a `None` parent on the way raises `IndirectCallCycleError` with
the originating child's location. -/
def notifyCycleGo (root : Nat) (childLoc : Nat) :
    Nat → List (Option Rec) → Target → Option Nat → List Action →
    Except EngErr (List (Option Rec) × Target × List Action)
  | 0, _, _, _, _ => .error .outOfFuel
  | fuel+1, stack, tgt, current, acc =>
    if current = some root then .ok (stack, tgt, acc)
    else
      match current with
      | none => .error (.indirectCallCycle childLoc)
      | some cur =>
        match stack.get? cur with
        | none => .error .fatal
        | some none => .error .fatal
        | some (some r) =>
          if r.onCycle then .ok (stack, tgt, acc)
          else
            match r.createCycle tgt with
            | .error e => .error e
            | .ok (r', tgt', acts) =>
              notifyCycleGo root childLoc fuel (stack.set cur (some r')) tgt' r.parent (acc ++ acts)

/-- Source `StackBasedEngine.notifyCycle` entry point: the walk starts at
`childnode.parent` and the indirect-cycle diagnostic carries the child's
location. -/
def notifyCycle (stack : List (Option Rec)) (tgt : Target) (root : Nat)
    (childnode : Rec) (fuel : Nat) :
    Except EngErr (List (Option Rec) × Target × List Action) :=
  notifyCycleGo root childnode.locOf fuel stack tgt childnode.parent []

/-- C2.  On both cycle-propagation walks — `checkCycle` stepping from a
parent down toward an active record, and `notifyCycle` stepping from a
detecting Define up toward the cycle root — encountering a Not record that
is not already on-cycle makes the walk raise `NegativeCycle` carrying that
Not's source location (`checkCycle` raises directly, lines 135-136;
`notifyCycle` invokes `EvalNot.createCycle`, lines 1044-1045, which
raises).  The error return short-circuits the walk, so no fallback
evaluation is performed. -/
theorem cycle_walk_not_raises (stack : List (Option Rec)) (root cur fuel : Nat)
    (nr : NotRec)
    (hs : stack.get? cur = some (some (.notR nr)))
    (hoc : nr.base.on_cycle = false)
    (hne : cur ≠ root) :
    checkCycleGo stack root (fuel+1) cur = .error (.negativeCycle nr.base.loc)
      ∧ ∀ (tgt : Target) (childLoc : Nat) (acc : List Action),
          notifyCycleGo root childLoc (fuel+1) stack tgt (some cur) acc
            = .error (.negativeCycle nr.base.loc) := by
  have hs' : stack[cur]? = some (some (.notR nr)) := by
    rw [← List.get?_eq_getElem?]
    exact hs
  constructor
  · simp [checkCycleGo, hne, hs', Rec.onCycle, hoc]
  · intro tgt childLoc acc
    simp [notifyCycleGo, hne, hs', Rec.onCycle, hoc, Rec.createCycle]

/-- Concrete non-on-cycle Not record at slot 0, used for the C2 witness. -/
def notC2 : NotRec := ⟨⟨some 1, none, [], none, 0, false, 7⟩, []⟩

/-- Concrete one-slot arena holding `notC2`, used for the C2 witness. -/
def stackC2 : List (Option Rec) := [some (.notR notC2)]

/-- Concrete target, used for the C2 witness. -/
def tgtC2 : Target := ⟨Formula.init, DefineCache.empty⟩

/-- Witness for C2: both walks hit the Not at slot 0 and raise
`NegativeCycle` with its location. -/
theorem cycle_walk_not_raises_witness :
    checkCycleGo stackC2 1 1 0 = .error (.negativeCycle notC2.base.loc)
      ∧ notifyCycleGo 1 9 1 stackC2 tgtC2 (some 0) []
        = .error (.negativeCycle notC2.base.loc) :=
  ⟨(cycle_walk_not_raises stackC2 1 0 0 notC2 rfl rfl (by decide)).1,
   (cycle_walk_not_raises stackC2 1 0 0 notC2 rfl rfl (by decide)).2 tgtC2 9 []⟩

/-- Compiled database node.  The embedding covers the node variant the
claims exercise: a disjunction with its ordered child list and location.
The other variants of the closed set are not needed by the claims. -/
inductive DBNode where
  | disj (children : List Int) (location : Nat)

/-- The compiled clause database (consumed interface).  A slot holding
`none` is a node on which `type(node).__name__` has no entry in the
engine's `node_types` table — the unknown-definition case of `eval`. -/
structure Database where
  nodes : List (Option DBNode)

/-- Modelled from the spec: `database.lineno(location)` maps a location
token to a reported source position; positions are embedded as the tokens
themselves. -/
def Database.lineno (_db : Database) (location : Nat) : Nat := location

/-- Source `database.getNode(node_id)` for non-negative ids (negative ids
name built-ins and never reach the database). -/
def Database.getNode (db : Database) (i : Int) : Option DBNode :=
  if i < 0 then none else (db.nodes.get? i.toNat).join

/-- The engine's unknown-clause policy (lines 45-46, 74): `UNKNOWN_ERROR`
or `UNKNOWN_FAIL`. -/
inductive UnknownMode where
  | err
  | fail
deriving DecidableEq

/-- The driver-owned arena state used by the evaluators: the record stack,
the next free pointer, and the unknown-clause policy (lines 62-74). -/
structure Engine where
  stack : List (Option Rec)
  pointer : Nat
  unknown : UnknownMode

/-- Source `grow_stack` (lines 98-100): double the capacity by appending
empty slots.  The source keeps `stack_size` equal to `len(self.stack)`;
the embedding uses the length directly. -/
def Engine.grow_stack (e : Engine) : Engine :=
  { e with stack := e.stack ++ List.replicate e.stack.length none }

/-- Source `add_record` (lines 106-109): grow when full, write the record
at `pointer`, bump `pointer`. -/
def Engine.add_record (e : Engine) (r : Rec) : Engine :=
  let e1 := if e.stack.length ≤ e.pointer then e.grow_stack else e
  { e1 with
      stack := e1.stack.set e1.pointer (some r)
      pointer := e1.pointer + 1 }

/-- Source `eval_disj` (lines 337-344): an empty child list completes
immediately — `complete(parent, None)`, with a literal `None` identifier —
allocating nothing; otherwise an `EvalOr` record is allocated
(`EvalOr.__init__`, lines 528-532: fresh result set,
`to_complete = len(node.children)`) and one `call` per child is emitted via
`createCall` (lines 488-498: parent is the new record's pointer, context
and identifier are inherited, the transform is reset). -/
def eval_disj (eng : Engine) (parent : Option Nat) (node : DBNode)
    (context : Ctx) (identifier : Option Nat)
    (transform : Option Transformations) : Engine × List Action :=
  match node with
  | .disj children location =>
    if children.isEmpty then (eng, [.complete parent none])
    else
      let orRec : OrRec :=
        ⟨⟨parent, identifier, context, transform, eng.pointer, false, location⟩,
         ResultSet.empty, (children.length : Int)⟩
      (eng.add_record (.orR orRec),
       children.map (fun c => Action.call c (some eng.pointer) context identifier none))

/-- Source `eval` (lines 76-90): dispatch on the node's type through the
`node_types` table.  A node with no evaluator falls to the unknown-clause
policy: `UNKNOWN_FAIL` synthesizes a `complete` for the calling record,
`UNKNOWN_ERROR` raises the internal `_UnknownClause`.  Negative ids name
built-ins, which are outside the embedded fragment. -/
def evalE (eng : Engine) (db : Database) (node_id : Int) (parent : Option Nat)
    (context : Ctx) (identifier : Option Nat)
    (transform : Option Transformations) : Except EngErr (Engine × List Action) :=
  if node_id < 0 then .error .fatal
  else
    match db.getNode node_id with
    | none =>
      match eng.unknown with
      | .fail => .ok (eng, [.complete parent identifier])
      | .err => .error .unknownClauseInternal
    | some node => .ok (eval_disj eng parent node context identifier transform)

/-- Source `eval_call` dispatch tail (lines 395-403): the call origin
`'functor/arity'` and the call-site location are attached, and an internal
`_UnknownClause` raised by `eval` is converted to the public
`UnknownClause(origin, database.lineno(location))`.  The
argument-substitution front of `eval_call` (external
`substitute_call_args`) is outside src/ and not needed here. -/
def eval_call_dispatch (eng : Engine) (db : Database) (functor : String)
    (arity : Nat) (location : Nat) (defnode : Int) (parent : Option Nat)
    (context : Ctx) (identifier : Option Nat)
    (transform : Option Transformations) : Except EngErr (Engine × List Action) :=
  let origin := functor ++ "/" ++ toString arity
  match evalE eng db defnode parent context identifier transform with
  | .error .unknownClauseInternal => .error (.unknownClause origin (some (db.lineno location)))
  | r => r

/-- C3.  For a call whose target definition node is absent from the
database: with the `ERROR` policy the dispatch raises `UnknownClause`
carrying the predicate's functor/arity signature and the call-site
location; with the `FAIL` policy a `complete` is synthesized for the
calling record, so the call contributes zero solutions. -/
theorem unknown_clause_policy (eng : Engine) (db : Database) (functor : String)
    (arity location : Nat) (defnode : Int) (parent : Option Nat) (context : Ctx)
    (identifier : Option Nat) (transform : Option Transformations)
    (hpos : 0 ≤ defnode) (habs : db.getNode defnode = none) :
    (eng.unknown = .err →
        eval_call_dispatch eng db functor arity location defnode parent context identifier transform
          = .error (.unknownClause (functor ++ "/" ++ toString arity) (some (db.lineno location))))
      ∧ (eng.unknown = .fail →
          eval_call_dispatch eng db functor arity location defnode parent context identifier transform
            = .ok (eng, [.complete parent identifier])) := by
  have hneg : ¬ defnode < 0 := by omega
  constructor <;> intro h <;>
    simp [eval_call_dispatch, evalE, hneg, habs, h]

/-- Concrete database with one unresolvable node, used for the C3 witness. -/
def dbC3 : Database := ⟨[none]⟩

/-- Concrete engine with the ERROR policy, used for the C3 witness. -/
def engC3e : Engine := ⟨[], 0, .err⟩

/-- Concrete engine with the FAIL policy, used for the C3 witness. -/
def engC3f : Engine := ⟨[], 0, .fail⟩

/-- Witness for C3 with both policies at the concrete database `dbC3`. -/
theorem unknown_clause_policy_witness :
    eval_call_dispatch engC3e dbC3 "p" 2 11 0 none [] none none
        = .error (.unknownClause ("p" ++ "/" ++ toString 2) (some (dbC3.lineno 11)))
      ∧ eval_call_dispatch engC3f dbC3 "p" 2 11 0 none [] none none
        = .ok (engC3f, [.complete none none]) :=
  ⟨(unknown_clause_policy engC3e dbC3 "p" 2 11 0 none [] none none
      (by decide) rfl).1 rfl,
   (unknown_clause_policy engC3f dbC3 "p" 2 11 0 none [] none none
      (by decide) rfl).2 rfl⟩

/-- C10.  Evaluating a disjunction node with an empty child list emits
exactly one `complete` to the parent and allocates no record — the arena
and its pointer are unchanged.  With a non-empty child list exactly one
`EvalOr` record is allocated (the slot at the old pointer is filled, the
pointer advances by one, `to_complete` is the child count) and exactly one
`call` per child is emitted. -/
theorem eval_disj_children (eng : Engine) (parent : Option Nat)
    (children : List Int) (location : Nat) (context : Ctx)
    (identifier : Option Nat) (transform : Option Transformations)
    (hp : eng.pointer < eng.stack.length) :
    (children = [] →
        eval_disj eng parent (.disj children location) context identifier transform
          = (eng, [.complete parent none]))
      ∧ (children ≠ [] →
          (eval_disj eng parent (.disj children location) context identifier transform).1.pointer
              = eng.pointer + 1
            ∧ (eval_disj eng parent (.disj children location) context identifier transform).1.stack.get?
                eng.pointer
              = some (some (.orR ⟨⟨parent, identifier, context, transform, eng.pointer, false, location⟩, ResultSet.empty, (children.length : Int)⟩))
            ∧ (eval_disj eng parent (.disj children location) context identifier transform).2
              = children.map (fun c => Action.call c (some eng.pointer) context identifier none)) := by
  constructor
  · intro h
    subst h
    simp [eval_disj]
  · intro h
    have hne : children.isEmpty = false := by
      cases children with
      | nil => exact absurd rfl h
      | cons a l => simp
    have hgrow : ¬ eng.stack.length ≤ eng.pointer := Nat.not_le.mpr hp
    refine ⟨?_, ?_, ?_⟩ <;>
      simp [eval_disj, hne, Engine.add_record, hgrow, List.get?_eq_getElem?,
        List.getElem?_set_self, hp]

/-- Concrete engine with one free slot, used for the C10 witness. -/
def engC10 : Engine := ⟨[none], 0, .err⟩

/-- Witness for C10: the empty disjunction leaves the engine untouched, and
a two-child disjunction allocates one record and two calls. -/
theorem eval_disj_children_witness :
    (eval_disj engC10 (some 4) (.disj [] 3) [] none none
        = (engC10, [.complete (some 4) none]))
      ∧ ((eval_disj engC10 (some 4) (.disj [7, 8] 3) [] none none).1.pointer = 1
          ∧ (eval_disj engC10 (some 4) (.disj [7, 8] 3) [] none none).1.stack.get? 0
            = some (some (.orR ⟨⟨some 4, none, [], none, 0, false, 3⟩, ResultSet.empty, ((2 : Nat) : Int)⟩))
          ∧ (eval_disj engC10 (some 4) (.disj [7, 8] 3) [] none none).2
            = [7, 8].map (fun c => Action.call c (some 0) [] none none)) :=
  ⟨(eval_disj_children engC10 (some 4) [] 3 [] none none (by decide)).1 rfl,
   (eval_disj_children engC10 (some 4) [7, 8] 3 [] none none (by decide)).2 (by decide)⟩

/-- Driver state of one `execute` run (lines 139-230): the arena, its
pointer, the engine's cycle root, the target, the solutions collected for
the outer caller, and the pending action queue.  The source keeps actions
reversed and pops from the back; the embedding pops from the front of
`queue`, which executes the same order. -/
structure LoopState where
  stack : List (Option Rec)
  pointer : Nat
  cycleRoot : Option Nat
  target : Target
  solutions : List (Ctx × GNode)
  queue : List Action

/-- Pointer rewind of `cleanUp` (lines 236-238): while the slot below the
pointer is empty, lower the pointer. -/
def rewindPtr (stack : List (Option Rec)) : Nat → Nat
  | 0 => 0
  | p+1 =>
    match stack.get? p with
    | some none => rewindPtr stack p
    | _ => p+1

/-- Source `cleanUp` (lines 232-238): drop the cycle root if it is the
cleaned record, null the slot, rewind the pointer past trailing empties. -/
def cleanUpState (st : LoopState) (obj : Nat) : LoopState :=
  let st1 := if st.cycleRoot = some obj then { st with cycleRoot := none } else st
  let stack := st1.stack.set obj none
  { st1 with
      stack := stack
      pointer := rewindPtr stack st1.pointer }

/-- Invoke `closeCycle(True)` on the record the engine's `cycle_root`
points to.  The root is a Define record (anything else would crash the
source); `closeCycle` resets the engine's cycle root and yields the close
actions. -/
def closeCycleAt (st : LoopState) (cr : Nat) : Except EngErr (LoopState × List Action) :=
  match st.stack.get? cr with
  | some (some (.defineR d)) =>
    let p := d.closeCycleD true st.cycleRoot
    .ok ({ st with
            cycleRoot := p.1
            stack := st.stack.set cr (some (.defineR p.2.2)) }, p.2.1)
  | _ => .error .fatal

/-- Source lines 208-209: when the queue has drained and the step produced
no new actions while a cycle root is still active, emit the root's
`closeCycle(True)` actions. -/
def maybeCloseCycle (st : LoopState) (rest next : List Action) :
    Except EngErr (LoopState × List Action) :=
  if rest.isEmpty && next.isEmpty then
    match st.cycleRoot with
    | some cr => closeCycleAt st cr
    | none => .ok (st, next)
  else .ok (st, next)

/-- Source lines 183-190: an internal `_UnknownClause` escaping `eval` is
converted using the call's origin — `UnknownClause('unknown', None)` when
no origin was recorded, else `UnknownClause(signature, lineno(location))`
(locations are embedded as their tokens). -/
def evalCallMsg
    (evalF : LoopState → Int → Option Nat → Ctx → Option Nat → Except EngErr (LoopState × List Action))
    (st : LoopState) (nid : Int) (parent : Option Nat) (ctx : Ctx)
    (idf : Option Nat) (corigin : Option (String × Nat)) :
    Except EngErr (LoopState × List Action) :=
  match evalF st nid parent ctx idf with
  | .ok p => .ok p
  | .error .unknownClauseInternal =>
    match corigin with
    | none => .error (.unknownClause "unknown" none)
    | some sl => .error (.unknownClause sl.1 (some sl.2))
  | .error e => .error e

/-- Dispatch of one non-outer message (lines 172-207).  A `call` whose
parent predates the active cycle root first triggers `closeCycle(True)` and
is re-queued behind the close actions (lines 174-176; the source predates a
`None` parent as well, Python-2 `None < int`); otherwise the call is
evaluated.  A `result`/`complete` addressed to a record is delivered to it;
a missing or empty slot is `InvalidEngineState`.  The returned optional
pointer is the record to clean up.  The per-record handlers and the
per-node evaluators are the `stepF`/`evalF` parameters — the loop itself is
generic over them (the source dispatches dynamically). -/
def dispatchMsg
    (evalF : LoopState → Int → Option Nat → Ctx → Option Nat → Except EngErr (LoopState × List Action))
    (stepF : Rec → Target → Action → Except EngErr (Bool × List Action × Rec × Target))
    (st : LoopState) (a : Action) :
    Except EngErr (LoopState × List Action × Option Nat) :=
  match a with
  | .call nid parent ctx idf corigin =>
    match st.cycleRoot with
    | some cr =>
      if (match parent with | some p => decide (p < cr) | none => true) then
        match closeCycleAt st cr with
        | .error e => .error e
        | .ok (st1, acts) => .ok (st1, acts ++ [a], none)
      else
        match evalCallMsg evalF st nid parent ctx idf corigin with
        | .error e => .error e
        | .ok (st1, acts) => .ok (st1, acts, none)
    | none =>
      match evalCallMsg evalF st nid parent ctx idf corigin with
      | .error e => .error e
      | .ok (st1, acts) => .ok (st1, acts, none)
  | .result (some p) _ _ _ _ =>
    match st.stack.get? p with
    | none => .error .invalidEngineState
    | some none => .error .invalidEngineState
    | some (some r) =>
      match stepF r st.target a with
      | .error e => .error e
      | .ok q =>
        .ok ({ st with
                stack := st.stack.set p (some q.2.2.1)
                target := q.2.2.2 }, q.2.1, if q.1 then some p else none)
  | .complete (some p) _ =>
    match st.stack.get? p with
    | none => .error .invalidEngineState
    | some none => .error .invalidEngineState
    | some (some r) =>
      match stepF r st.target a with
      | .error e => .error e
      | .ok q =>
        .ok ({ st with
                stack := st.stack.set p (some q.2.2.1)
                target := q.2.2.2 }, q.2.1, if q.1 then some p else none)
  | _ => .error .fatal

/-- The trampoline of `execute` (lines 148-230), fuelled.  A `result` to
the outer caller accumulates a solution; its `is_last` flag ends a
top-level run after checking `pointer == 0` (raising `InvalidEngineState`
otherwise) and resetting the arena through `shrink_stack` (lines 102-104:
a fresh list of 128 empty slots).  A `complete` to the outer caller returns
the solutions as they stand.  Every other message goes through
`dispatchMsg`, the drained-queue cycle closure, queue prepending and
cleanup.  The source's debug tracing and statistics counters have no
bearing on the state and are omitted. -/
def execLoopGo
    (evalF : LoopState → Int → Option Nat → Ctx → Option Nat → Except EngErr (LoopState × List Action))
    (stepF : Rec → Target → Action → Except EngErr (Bool × List Action × Rec × Target))
    (subcall : Bool) :
    Nat → LoopState → Except EngErr (List (Ctx × GNode) × LoopState)
  | 0, _ => .error .outOfFuel
  | fuel+1, st =>
    match st.queue with
    | [] => .error .invalidEngineState
    | a :: rest =>
      match a with
      | .result none res gn _ lastf =>
        let st1 := { st with
                      solutions := st.solutions ++ [(res, gn)]
                      queue := rest }
        if lastf then
          if !subcall && decide (st1.pointer ≠ 0) then .error .invalidEngineState
          else if !subcall then .ok (st1.solutions, { st1 with stack := List.replicate 128 none })
          else .ok (st1.solutions, st1)
        else execLoopGo evalF stepF subcall fuel st1
      | .complete none _ => .ok (st.solutions, { st with queue := rest })
      | _ =>
        match dispatchMsg evalF stepF st a with
        | .error e => .error e
        | .ok (st1, next, cleanupObj) =>
          match maybeCloseCycle st1 rest next with
          | .error e => .error e
          | .ok (st2, next2) =>
            let st3 := { st2 with queue := next2 ++ rest }
            let st4 := match cleanupObj with
              | some obj => cleanUpState st3 obj
              | none => st3
            execLoopGo evalF stepF subcall fuel st4

/-- Concrete loop state with a residual record at slot 0, pointer 1, and a
top-level `complete` pending, used for the C8 counterexample. -/
def stC8 : LoopState :=
  ⟨[some (.genR ⟨none, none, [], none, 0, false, 0⟩)], 1, none,
   ⟨Formula.init, DefineCache.empty⟩, [], [.complete none none]⟩

/-- Trivial evaluator parameter (never reached in the C8 scenarios). -/
def evalF0 : LoopState → Int → Option Nat → Ctx → Option Nat →
    Except EngErr (LoopState × List Action) :=
  fun _ _ _ _ _ => .error .fatal

/-- Trivial record-step parameter (never reached in the C8 scenarios). -/
def stepF0 : Rec → Target → Action → Except EngErr (Bool × List Action × Rec × Target) :=
  fun _ _ _ => .error .fatal

/-- C8 counterexample.  A top-level run that ends with a `complete` to the
outer caller returns normally without any pointer check or arena reset:
here it returns with pointer 1 and a non-⊥ slot, contradicting the claimed
invariant for every normal top-level return. -/
theorem execute_return_arena_cex :
    execLoopGo evalF0 stepF0 false 1 stC8 = .ok ([], { stC8 with queue := [] })
      ∧ ¬ ({ stC8 with queue := ([] : List Action) }).pointer = 0
      ∧ ({ stC8 with queue := ([] : List Action) }).stack.get? 0
        = some (some (.genR ⟨none, none, [], none, 0, false, 0⟩)) := by
  refine ⟨rfl, by decide, rfl⟩

/-- C8 (amended).  When the outer caller receives its last `result` in a
top-level (non-subcall) run, the loop raises `InvalidEngineState` if the
arena pointer is nonzero, and otherwise returns with the arena reset by
`shrink_stack`: every slot ⊥ and the pointer still 0.  A top-level
`complete` to the outer caller returns without this check or reset. -/
theorem execute_last_result_return
    (evalF : LoopState → Int → Option Nat → Ctx → Option Nat → Except EngErr (LoopState × List Action))
    (stepF : Rec → Target → Action → Except EngErr (Bool × List Action × Rec × Target))
    (st : LoopState) (fuel : Nat) (res : Ctx) (gn : GNode) (src : Option Nat)
    (rest : List Action)
    (hq : st.queue = Action.result none res gn src true :: rest) :
    (st.pointer ≠ 0 →
        execLoopGo evalF stepF false (fuel+1) st = .error .invalidEngineState)
      ∧ (st.pointer = 0 →
          execLoopGo evalF stepF false (fuel+1) st
            = .ok (st.solutions ++ [(res, gn)],
                { st with
                    solutions := st.solutions ++ [(res, gn)]
                    queue := rest
                    stack := List.replicate 128 none })) := by
  constructor
  · intro h
    simp [execLoopGo, hq, h]
  · intro h
    simp [execLoopGo, hq, h]

/-- Concrete clean loop state delivering its last top-level result, used
for the C8 witness. -/
def stC8w : LoopState :=
  ⟨[], 0, none, ⟨Formula.init, DefineCache.empty⟩, [],
   [.result none [] (some 2) none true]⟩

/-- Witness for C8: on the last-result path with pointer 0 the loop returns
with a fully reset arena; with pointer 1 it raises `InvalidEngineState`. -/
theorem execute_last_result_return_witness :
    execLoopGo evalF0 stepF0 false 1 stC8w
        = .ok ([([], some 2)],
            { stC8w with
                solutions := [([], (some 2 : GNode))]
                queue := ([] : List Action)
                stack := List.replicate 128 none })
      ∧ execLoopGo evalF0 stepF0 false 1 { stC8w with pointer := 1 }
        = .error .invalidEngineState :=
  ⟨by
    have h := (execute_last_result_return evalF0 stepF0 stC8w 0 [] (some 2) none [] rfl).2 rfl
    simpa using h,
   (execute_last_result_return evalF0 stepF0 { stC8w with pointer := 1 } 0 [] (some 2)
      none [] rfl).1 (by decide)⟩

end ProbLogStack
